import Mathlib

/-!
Verification of the telejob core (job controller and log dispatcher) against
its natural-language specification.  The definitions below are a shallow
embedding of the Go sources:

* `pkg/job/logs.go`    — the log dispatcher and its readers (`LogSys`, `LogStep`);
* `pkg/job/job.go`     — job status, stop and reap (`Status`, `waitUpdate`, `jobStopM`,
                          `newStartedCmdM`);
* `controller.go`      — the controller registry (`CtrlState`, `startM`, `stopM`,
                          `statusM`, `stopAllM`, the `cgroupWrites` sequence);
* `pkg/telejob/creds.go` — the gRPC service surface (`serviceLogs`).

Machine integers of the source are modelled as `Nat`/`Int` (the `uint64` id
counter cannot overflow in any run we consider, and Go exit codes fit in `Int`);
byte slices are `List Nat`; wall-clock instants are `Nat`, with `0` playing the
role of Go's zero `time.Time` (a real `time.Now()` is always positive).
-/

namespace Telejob

/-! ### Decimal job-id strings

`Controller.Start` forms job ids with `strconv.FormatUint(id, 10)`, which is
Lean's `toString : Nat → String`.  To reason about registry lookups we need
that this decimal representation is injective; `digitVal`/`strVal` evaluate a
decimal string back to the number it denotes. -/

/-- Numeric value of a decimal digit character (`'0'` has code point 48). -/
def digitVal (c : Char) : Nat := c.toNat - 48

/-- Value denoted by a list of decimal digit characters, most significant first. -/
def strVal (l : List Char) : Nat := l.foldl (fun a c => 10 * a + digitVal c) 0

/-- Value denoted by a decimal string. -/
def natStringVal (s : String) : Nat := strVal s.data

/-! ### Log dispatcher (`pkg/job/logs.go`)

The dispatcher is a single event loop owning `fullLog` (append-only byte
buffer), the producer state (`inputCh` open or `nil`) and the `followers` set.
Readers interact through one-shot requests carrying a buffered response slot
of capacity one, so a dispatcher send to a follower never blocks and the
reader consumes the response as its next action.  We therefore model each
dispatcher event atomically, folding a parked reader's pending receive into
the event that fulfils it; the per-reader record also carries the ghost field
`consumed`, the concatenation of all byte slices its `Read` calls returned.

Reader cancellation (`ctx.Done`) only removes the reader's own slot from
`followers` and makes its subsequent `Read` calls fail without returning
bytes; a cancelled reader never reaches EOF, so those transitions are
irrelevant to the fan-out law and are omitted. -/

/-- State of one `logReader` (`logs.go:149`): its cursor `startIdx`, whether
`respCh` has been set to `nil` after a closed response channel (`atEOF`), and
the ghost concatenation of all byte slices returned so far. -/
structure LogReaderSt where
  startIdx : Nat
  atEOF : Bool
  consumed : List Nat
deriving Repr, DecidableEq

/-- A freshly created reader (`newReader`, `logs.go:126`): cursor 0, live. -/
def initReader : LogReaderSt := ⟨0, false, []⟩

/-- Combined state of one dispatcher and its (countably many) readers.
`parked i = some cap` means reader `i` is in `followers` with a pending `Read`
whose caller buffer has length `cap`. -/
structure LogSys where
  fullLog : List Nat
  inputOpen : Bool
  readers : Nat → LogReaderSt
  parked : Nat → Option Nat

/-- Initial dispatcher state (`newStartedLogDispatcher`): empty log, producer
open, no followers, all readers fresh. -/
def logInit : LogSys := ⟨[], true, fun _ => initReader, fun _ => none⟩

/-- Effect on a reader of receiving byte slice `b` in a `Read` with caller
buffer length `cap` (`logs.go:184-186`): `n := copy(p, b)` bytes are returned
and `startIdx` advances by `n`. -/
def consume (r : LogReaderSt) (cap : Nat) (b : List Nat) : LogReaderSt :=
  ⟨r.startIdx + min cap b.length, false, r.consumed ++ b.take (min cap b.length)⟩

/-- Reader after its response channel is closed (`logs.go:180-182`):
`respCh = nil`, permanently EOF. -/
def eofReader (r : LogReaderSt) : LogReaderSt := ⟨r.startIdx, true, r.consumed⟩

/-- Dispatcher event: input chunk arrived (`handleInput`, `logs.go:85-93`).
The chunk is appended to `fullLog` and sent to every follower, and the
follower set is cleared; each parked reader consumes the chunk with the
buffer length of its pending `Read`. -/
def handleInput (s : LogSys) (b : List Nat) : LogSys :=
  { fullLog := s.fullLog ++ b
    inputOpen := s.inputOpen
    readers := fun i =>
      match s.parked i with
      | some cap => consume (s.readers i) cap b
      | none => s.readers i
    parked := fun _ => none }

/-- Dispatcher event: input closed (`handleInputClosed`, `logs.go:95-101`).
The producer is marked closed and every follower's channel is closed,
signalling EOF to the parked readers. -/
def handleInputClosed (s : LogSys) : LogSys :=
  { fullLog := s.fullLog
    inputOpen := false
    readers := fun i =>
      match s.parked i with
      | some _ => eofReader (s.readers i)
      | none => s.readers i
    parked := fun _ => none }

/-- Reader `i` performs a `Read` (buffer length `cap`) answered immediately
from history (`handleRequest` first branch, `logs.go:111-112`): the dispatcher
sends `fullLog[startIdx:]` and the reader consumes it. -/
def requestHist (s : LogSys) (i cap : Nat) : LogSys :=
  { s with readers := fun k =>
      if k = i then consume (s.readers k) cap (s.fullLog.drop (s.readers k).startIdx)
      else s.readers k }

/-- Reader `i` performs a `Read` that reaches the tail while the producer is
still open (`handleRequest` second branch, `logs.go:113-114`): its response
slot is recorded in `followers`. -/
def requestPark (s : LogSys) (i cap : Nat) : LogSys :=
  { s with parked := fun k => if k = i then some cap else s.parked k }

/-- Reader `i` performs a `Read` that reaches the tail after the producer
closed (`handleRequest` default branch, `logs.go:115-116`): its response slot
is closed and the reader returns EOF. -/
def requestEOF (s : LogSys) (i : Nat) : LogSys :=
  { s with readers := fun k => if k = i then eofReader (s.readers k) else s.readers k }

/-- One transition of the dispatcher/readers system.  `Status` reads and
cancelled `Read`s do not change this state. -/
inductive LogStep : LogSys → LogSys → Prop where
  | input (s : LogSys) (b : List Nat) (h : s.inputOpen = true) :
      LogStep s (handleInput s b)
  | closeInput (s : LogSys) (h : s.inputOpen = true) :
      LogStep s (handleInputClosed s)
  | readHist (s : LogSys) (i cap : Nat)
      (hpark : s.parked i = none) (heof : (s.readers i).atEOF = false)
      (hlt : (s.readers i).startIdx < s.fullLog.length) :
      LogStep s (requestHist s i cap)
  | readPark (s : LogSys) (i cap : Nat)
      (hpark : s.parked i = none) (heof : (s.readers i).atEOF = false)
      (hge : s.fullLog.length ≤ (s.readers i).startIdx) (hopen : s.inputOpen = true) :
      LogStep s (requestPark s i cap)
  | readEOF (s : LogSys) (i : Nat)
      (hpark : s.parked i = none) (heof : (s.readers i).atEOF = false)
      (hge : s.fullLog.length ≤ (s.readers i).startIdx) (hclosed : s.inputOpen = false) :
      LogStep s (requestEOF s i)

/-- States reachable from a fresh dispatcher. -/
def LogReach (s : LogSys) : Prop := Relation.ReflTransGen LogStep logInit s

/-- Per-reader invariant of the dispatcher loop: the bytes returned so far are
exactly the prefix of `fullLog` below the cursor; the cursor never passes the
tail; a parked reader sits exactly at the tail; a reader at EOF sits at the
tail of a closed log. -/
def ReaderInv (L : List Nat) (opn : Bool) (cap? : Option Nat) (r : LogReaderSt) : Prop :=
  r.consumed = L.take r.startIdx ∧
  r.startIdx ≤ L.length ∧
  (cap?.isSome = true → r.startIdx = L.length) ∧
  (r.atEOF = true → r.startIdx = L.length ∧ opn = false)

/-- System-wide invariant: every reader satisfies `ReaderInv`. -/
def SysInv (s : LogSys) : Prop := ∀ i, ReaderInv s.fullLog s.inputOpen (s.parked i) (s.readers i)

/-! ### Job status and reaping (`pkg/job/job.go`)

The `Status` record, the exit-code constants and the `Limits` record are
declared in the job package's declarations segment (the second `package job`
source appended to `pkg/job/logs_test.go`), and used by `job.go`, `creds.go`
and the tests. -/

/-- Exit-code constant for a job that has not yet terminated:
`NotTerminated = -2` (declared in the job package's declarations segment in
`pkg/job/logs_test.go`; `-2` is chosen there because the os package already
uses `-1` for a process that was signalled or has not exited). -/
def NotTerminated : Int := -2

/-- Exit-code constant for a job terminated by a signal:
`TerminatedBySignal = -1` (declared in the job package's declarations
segment in `pkg/job/logs_test.go`, matching `ProcessState.ExitCode`). -/
def TerminatedBySignal : Int := -1

/-- The `job.Status` snapshot record (`type Status struct` in the job
package's declarations segment in `pkg/job/logs_test.go`: `ID`, `Command`,
`Args`, `Started`, `Running`, `ExitCode`, `Stopped`).  Instants are `Nat`,
`0` standing for Go's zero `time.Time`; `ExitCode int` is `Int`. -/
structure Status where
  id : String
  command : String
  args : List String
  started : Nat
  running : Bool
  exitCode : Int
  stopped : Nat
deriving Repr, DecidableEq

/-- Status installed by `newJob` (`job.go:32-44`) after a successful spawn. -/
def initialStatus (id command : String) (args : List String) (now : Nat) : Status :=
  { id := id, command := command, args := args, started := now
    running := true, exitCode := NotTerminated, stopped := 0 }

/-- Outcome of `cmd.Wait()` as discriminated by `job.wait` (`job.go:85-99`):
`success` is a nil error; `exitErr c` is an `exec.ExitError` whose
`ExitCode()` is `c` (the Go runtime guarantees `c = -1` for a signal death or
an absent exit status, and `0..255` for a natural exit); `failed` is any other
non-nil error (the `default` branch, which only logs). -/
inductive WaitOutcome where
  | success
  | exitErr (code : Int)
  | failed
deriving Repr, DecidableEq

/-- Status update performed by `job.wait` under the mutex (`job.go:87-99`). -/
def waitUpdate (s : Status) (o : WaitOutcome) (now : Nat) : Status :=
  { s with
    running := false
    stopped := now
    exitCode :=
      match o with
      | .success => 0
      | .exitErr c => c
      | .failed => s.exitCode }

/-- Three-way status equivalence claimed by the spec (§8): running iff exit
code is `NotTerminated` iff the stop instant is the zero time. -/
def statusInv (s : Status) : Prop :=
  (s.running ↔ s.exitCode = NotTerminated) ∧ (s.running ↔ s.stopped = 0)

/-- Outcome of the `SIGKILL` sent by `job.stop` (`job.go:70`): success, the
`os.ErrProcessDone` race (ignored), or any other failure. -/
inductive KillResult where
  | ok
  | processDone
  | otherFail
deriving Repr, DecidableEq

/-! ### Errors and job construction (`job.go`, `controller.go`) -/

/-- Sentinel errors of the `job` package (declared in the job package's
declarations segment in `pkg/job/logs_test.go`).  `command` is `ErrCommand`,
`shutdown` is `ErrShutdown`, `notFound` is `ErrJobNotFound`, `unauthorized`
is `ErrUnauthorized`, `cgroup` is `ErrCgroup`, `jobStop` is `ErrJobStop`;
`generic` stands for the anonymous wrapped errors (failed `mkdir`, failed
`os.Open`, failed cgroup delete) that carry no sentinel. -/
inductive JError where
  | command
  | shutdown
  | notFound
  | unauthorized
  | cgroup
  | jobStop
  | generic
deriving Repr, DecidableEq

/-- Resource limits (`type Limits struct` in the job package's declarations
segment in `pkg/job/logs_test.go`: `CPUs float64`, `MemoryKiB uint64`,
`IO []string`).  `CPUs` is modelled as a rational: for the non-negative
values the spec allows (§3), Go's `int(limits.CPUs*100000)` truncation
agrees with the rational floor at every float-representable input; the
spec's testable inputs (such as 0.5) are float-exact. -/
structure Limits where
  cpus : ℚ
  memoryKiB : Nat
  io : List String
deriving DecidableEq

/-- Content written to `cpu.max` (`controller.go:232`):
`fmt.Sprintf("%d\n", int(limits.CPUs*100000))`. -/
def cpuMaxContent (cpus : ℚ) : String := toString (Int.floor (cpus * 100000)) ++ "\n"

/-- Content written to `memory.max` (`controller.go:238`):
`fmt.Sprintf("%d\n", limits.MemoryKiB*1024)`. -/
def memoryMaxContent (kib : Nat) : String := toString (kib * 1024) ++ "\n"

/-- The ordered sequence of control-file writes performed by `newJobCgroup`
(`controller.go:226-249`) when every write succeeds: `cpu.max` iff
`limits.CPUs > 0`, then `memory.max` iff `limits.MemoryKiB > 0`, then one
independent `io.max` write per entry of `limits.IO`. -/
def cgroupWrites (l : Limits) : List (String × String) :=
  (if 0 < l.cpus then [("cpu.max", cpuMaxContent l.cpus)] else []) ++
    (if 0 < l.memoryKiB then [("memory.max", memoryMaxContent l.memoryKiB)] else []) ++
    l.io.map (fun line => ("io.max", line))

/-- Modelled from the spec: the kernel-side read-back of `cpu.max` after a
bare quota `"<q>\n"` has been written — cgroup v2 reports the quota together
with the default period `100000`, so the file reads `"<q> 100000\n"`
(spec §8 testable property; the repository test reads back exactly
`"50000 100000\n"`). -/
def cpuMaxFileContent (quota : Int) : String := toString quota ++ " 100000\n"

/-- Environment of one `newStartedCmd` run (`job.go:131-154`): whether the
job-cgroup `mkdir` succeeds, the index of the first failing limit write (if
any, counting the writes of `cgroupWrites` in order), whether `os.Open` on
the cgroup directory succeeds, and whether `cmd.Start` succeeds. -/
structure StartEnv where
  mkdirOk : Bool
  cgFailIdx : Option Nat
  openOk : Bool
  spawnOk : Bool
deriving Repr, DecidableEq

/-- Observable result of `newStartedCmd`: the error returned (`none` on
success), whether the job cgroup directory was created, and whether a
best-effort `deleteCgroup` of that directory was attempted. -/
structure CmdResult where
  error : Option JError
  dirCreated : Bool
  deleteAttempted : Bool
deriving Repr, DecidableEq

/-- Shallow embedding of `newStartedCmd` (`job.go:131-154`) composed with
`newJobCgroup` (`controller.go:226-249`): a failed `mkdir` aborts with an
anonymous error and no directory; a failed limit write returns `ErrCgroup`
and the deferred `deleteCgroupOnErr` removes the directory; a failed
`os.Open` returns an anonymous error with no cleanup; a failed `cmd.Start`
deletes the cgroup and returns `ErrCommand`. -/
def newStartedCmdM (l : Limits) (e : StartEnv) : CmdResult :=
  if e.mkdirOk = false then ⟨some .generic, false, false⟩
  else if e.cgFailIdx.any (fun i => i < (cgroupWrites l).length) then ⟨some .cgroup, true, true⟩
  else if e.openOk = false then ⟨some .generic, true, false⟩
  else if e.spawnOk = false then ⟨some .command, true, true⟩
  else ⟨none, true, false⟩

/-! ### Controller (`controller.go`) -/

/-- One registered job as the controller sees it: immutable `owner` plus the
mutex-protected `status` (`job.go:16-23`; the `cmd` and `cgroup` fields act
only through `StartEnv`/`KillResult`/`WaitOutcome`). -/
structure JobM where
  owner : String
  status : Status
deriving Repr, DecidableEq

/-- Controller state (`controller.go:38-46`): the registry map (newest binding
first, as Go map insertion with fresh keys), the `maxID` counter, the
shutdown flag and the immutable global limits. -/
structure CtrlState where
  jobs : List (String × JobM)
  maxID : Nat
  shutDown : Bool
  limits : Limits

/-- A fresh controller (`NewController`, `controller.go:49-61`). -/
def ctrlInit (l : Limits) : CtrlState := ⟨[], 0, false, l⟩

/-- Registry lookup (Go map read: the newest binding for the key wins). -/
def lookupJob (c : CtrlState) (id : String) : Option JobM :=
  (c.jobs.find? (fun p => p.1 == id)).map (fun p => p.2)

/-- `newJob` (`job.go:27-45`): spawn via `newStartedCmdM`, then install the
initial running status. -/
def newJobM (owner id command : String) (args : List String) (l : Limits) (e : StartEnv)
    (now : Nat) : Except JError JobM :=
  match (newStartedCmdM l e).error with
  | some err => .error err
  | none => .ok ⟨owner, initialStatus id command args now⟩

/-- `Controller.Start` (`controller.go:88-112`): reject an empty command with
`ErrCommand`; reject when shut down with `ErrShutdown`; only then increment
`maxID` (so a later failure still consumes the id), build the job, and on
success register it. -/
def startM (c : CtrlState) (owner command : String) (args : List String) (e : StartEnv)
    (now : Nat) : Except JError String × CtrlState :=
  if command = "" then (.error .command, c)
  else if c.shutDown then (.error .shutdown, c)
  else
    let id := toString (c.maxID + 1)
    match newJobM owner id command args c.limits e now with
    | .error err => (.error err, { c with maxID := c.maxID + 1 })
    | .ok j =>
      (.ok id, { jobs := (id, j) :: c.jobs, maxID := c.maxID + 1
                 shutDown := c.shutDown, limits := c.limits })

/-- `Controller.get` (`controller.go:185-196`): lookup by id, then owner check. -/
def getJob (c : CtrlState) (owner id : String) : Except JError JobM :=
  match lookupJob c id with
  | none => .error .notFound
  | some j => if j.owner ≠ owner then .error .unauthorized else .ok j

/-- `job.stop` (`job.go:63-81`): a job that is not running is a no-op success;
otherwise the `SIGKILL` outcome decides, with `os.ErrProcessDone` ignored.
The status snapshot is never modified by `stop`. -/
def jobStopM (j : JobM) (kr : KillResult) : Except JError Unit :=
  if j.status.running = false then .ok ()
  else
    match kr with
    | .ok => .ok ()
    | .processDone => .ok ()
    | .otherFail => .error .jobStop

/-- `Controller.Stop` (`controller.go:119-125`): lookup+auth, then `job.stop`.
The registry and every status snapshot are left unchanged. -/
def stopM (c : CtrlState) (owner id : String) (kr : KillResult) :
    Except JError Unit × CtrlState :=
  match getJob c owner id with
  | .error err => (.error err, c)
  | .ok j => (jobStopM j kr, c)

/-- `Controller.Status` (`controller.go:131-137`): lookup+auth, then a copy of
the status snapshot. -/
def statusM (c : CtrlState) (owner id : String) : Except JError Status :=
  match getJob c owner id with
  | .error err => .error err
  | .ok j => .ok j.status

/-- The reaper finishing for job `id` (`job.wait`, `job.go:85-105`): the
status is rewritten under the mutex by `waitUpdate`; owner and registry keys
are untouched. -/
def reapM (c : CtrlState) (id : String) (o : WaitOutcome) (now : Nat) : CtrlState :=
  { c with jobs := c.jobs.map (fun p =>
      if p.1 == id then (p.1, ⟨p.2.owner, waitUpdate p.2.status o now⟩) else p) }

/-- `Controller.StopAll` (`controller.go:147-172`): a no-op success when
already shut down; otherwise set the flag, `stop()` every running job
collecting errors, wait for the reapers, delete the parent cgroup, and return
the joined errors (if any).  `kr` gives each job's kill outcome and
`parentDelOk` whether the parent cgroup delete succeeds. -/
def stopAllM (c : CtrlState) (kr : String → KillResult) (parentDelOk : Bool) :
    Except (List JError) Unit × CtrlState :=
  if c.shutDown then (.ok (), c)
  else
    let stopErrs := c.jobs.filterMap (fun p =>
      if p.2.status.running then
        match kr p.1 with
        | .otherFail => some JError.jobStop
        | _ => none
      else none)
    let errs := if parentDelOk then stopErrs else stopErrs ++ [JError.generic]
    (if errs = [] then .ok () else .error errs, { c with shutDown := true })

/-- One state-changing controller interaction.  `Status` is read-only and the
log dispatcher does not touch controller state, so the four constructors
cover everything that can alter a `CtrlState`. -/
inductive CtrlStep : CtrlState → CtrlState → Prop where
  | start (c : CtrlState) (owner command : String) (args : List String) (e : StartEnv)
      (now : Nat) : CtrlStep c (startM c owner command args e now).2
  | stop (c : CtrlState) (owner id : String) (kr : KillResult) :
      CtrlStep c (stopM c owner id kr).2
  | reap (c : CtrlState) (id : String) (o : WaitOutcome) (now : Nat) :
      CtrlStep c (reapM c id o now)
  | stopAll (c : CtrlState) (kr : String → KillResult) (parentDelOk : Bool) :
      CtrlStep c (stopAllM c kr parentDelOk).2

/-- Controller states reachable from a fresh controller with limits `l`. -/
def CtrlReach (l : Limits) (c : CtrlState) : Prop :=
  Relation.ReflTransGen CtrlStep (ctrlInit l) c

/-- Registry-key invariant: every registered id is the decimal string of some
counter value between 1 and `maxID`. -/
def KeysBounded (c : CtrlState) : Prop :=
  ∀ id j, lookupJob c id = some j → ∃ k, 1 ≤ k ∧ k ≤ c.maxID ∧ id = toString k

/-! ### gRPC service surface (`pkg/telejob/creds.go`) -/

/-- A `pb.LogsRequest` (`proto/telejob.proto`). -/
structure LogsRequest where
  id : String
  follow : Bool
deriving Repr, DecidableEq

/-- The gRPC status codes used by the service layer. -/
inductive GrpcCode where
  | invalidArgument
  | notFound
  | permissionDenied
  | internal
  | unimplemented
deriving Repr, DecidableEq

/-- `Service.Logs` (`creds.go:154-157`): the service in this source tree
answers every `Logs` call with `codes.Unimplemented` and never produces a
stream of chunks. -/
def serviceLogs (_ : LogsRequest) : Except GrpcCode (List (List Nat)) :=
  .error .unimplemented

/-! ### Concrete instances used by witnesses and scenario runs -/

/-- A controller with no limits configured (all zero: nothing is written). -/
def limits0 : Limits := ⟨0, 0, []⟩

/-- Environment of a fully successful job construction. -/
def okEnv : StartEnv := ⟨true, none, true, true⟩

/-- Environment where only the final `cmd.Start` fails (e.g. command `"NOPE"`
names no binary). -/
def spawnFailEnv : StartEnv := ⟨true, none, true, false⟩

/-- Fresh controller of the §8 scenario run. -/
def c5State0 : CtrlState := ctrlInit limits0

/-- Scenario state after `Start("alice","sleep",["100"])` → id "1". -/
def c5State1 : CtrlState := (startM c5State0 "alice" "sleep" ["100"] okEnv 1).2

/-- Scenario state after a second successful start → id "2". -/
def c5State2 : CtrlState := (startM c5State1 "alice" "sleep" ["100"] okEnv 2).2

/-- Scenario state after a third successful start → id "3". -/
def c5State3 : CtrlState := (startM c5State2 "alice" "sleep" ["100"] okEnv 3).2

/-- Scenario state after `Start("alice","NOPE",[])` fails to spawn. -/
def c5State4 : CtrlState := (startM c5State3 "alice" "NOPE" [] spawnFailEnv 4).2

/-- A controller shut down by a first `StopAll`. -/
def c8Base : CtrlState := (stopAllM (ctrlInit limits0) (fun _ => KillResult.ok) true).2

/-! ## Theorems -/

/-! ### Decimal strings -/

/-- Decoding a digit character produced by `Nat.digitChar` recovers the digit. -/
theorem digitVal_digitChar : ∀ d : Nat, d < 10 → digitVal (Nat.digitChar d) = d := by decide

/-- The accumulator of `Nat.toDigitsCore` is only appended to. -/
theorem toDigitsCore_append (f : Nat) : ∀ (n : Nat) (l : List Char),
    Nat.toDigitsCore 10 f n l = Nat.toDigitsCore 10 f n [] ++ l := by
  induction f with
  | zero => intro n l; simp [Nat.toDigitsCore]
  | succ f ih =>
    intro n l
    simp only [Nat.toDigitsCore]
    by_cases h : n / 10 = 0
    · simp [h]
    · simp only [h, if_false]
      rw [ih (n / 10) (Nat.digitChar (n % 10) :: l), ih (n / 10) [Nat.digitChar (n % 10)]]
      simp

/-- Appending one digit multiplies the decoded value by ten and adds the digit. -/
theorem strVal_append_singleton (l : List Char) (c : Char) :
    strVal (l ++ [c]) = 10 * strVal l + digitVal c := by
  simp [strVal, List.foldl_append]

/-- With sufficient fuel, decoding the digits of `n` yields `n`. -/
theorem strVal_toDigitsCore (f : Nat) : ∀ n : Nat, n < f →
    strVal (Nat.toDigitsCore 10 f n []) = n := by
  induction f with
  | zero => intro n h; omega
  | succ f ih =>
    intro n h
    have hmod : n % 10 < 10 := Nat.mod_lt _ (by norm_num)
    simp only [Nat.toDigitsCore]
    by_cases h0 : n / 10 = 0
    · simp only [h0, if_true, reduceIte]
      have hval : strVal [Nat.digitChar (n % 10)] = digitVal (Nat.digitChar (n % 10)) := by
        simp [strVal]
      rw [hval, digitVal_digitChar _ hmod]
      omega
    · simp only [h0, if_false]
      have hlt : n / 10 < f := by
        have h1 : 0 < n := by
          rcases Nat.eq_zero_or_pos n with h' | h'
          · exact absurd (by simp [h']) h0
          · exact h'
        have := Nat.div_lt_self h1 (by norm_num : 1 < 10)
        omega
      rw [toDigitsCore_append, strVal_append_singleton, ih _ hlt, digitVal_digitChar _ hmod]
      omega

/-- Decoding the decimal string of `n` yields `n` back. -/
theorem natStringVal_toString (n : Nat) : natStringVal (toString n) = n := by
  have h : natStringVal (toString n) = strVal (Nat.toDigitsCore 10 (n + 1) n []) := rfl
  rw [h]
  exact strVal_toDigitsCore _ _ (Nat.lt_succ_self n)

/-- Decimal strings of distinct naturals are distinct (`strconv.FormatUint`
is injective, so fresh job ids never collide with registered ones). -/
theorem toString_nat_inj {a b : Nat} (h : toString a = toString b) : a = b := by
  have ha := natStringVal_toString a
  have hb := natStringVal_toString b
  rw [← ha, ← hb, h]

/-! ### Log dispatcher: invariant -/

/-- A fresh dispatcher satisfies the reader invariant. -/
theorem sysInv_init : SysInv logInit := by
  intro i
  refine ⟨rfl, Nat.le_refl 0, ?_, ?_⟩
  · intro h; simp [logInit] at h
  · intro h; simp [logInit, initReader] at h

/-- Every dispatcher transition preserves the reader invariant. -/
theorem sysInv_step {s s' : LogSys} (hs : SysInv s) (h : LogStep s s') : SysInv s' := by
  cases h with
  | input b hopen =>
    intro i
    obtain ⟨hc, hle, hpk, heo⟩ := hs i
    simp only [handleInput]
    cases hp : s.parked i with
    | some cap =>
      have hidx : (s.readers i).startIdx = s.fullLog.length := hpk (by simp [hp])
      refine ⟨?_, ?_, ?_, ?_⟩
      · simp only [consume, hc, hidx, List.take_length, List.take_append]
      · simp only [consume, hidx, List.length_append]
        have := Nat.min_le_right cap b.length
        omega
      · intro hcontr; simp at hcontr
      · intro hcontr; simp [consume] at hcontr
    | none =>
      refine ⟨?_, ?_, ?_, ?_⟩
      · rw [hc, List.take_append_of_le_length hle]
      · simp only [List.length_append]; omega
      · intro hcontr; simp at hcontr
      · intro heof
        obtain ⟨_, hcl⟩ := heo heof
        rw [hcl] at hopen
        exact absurd hopen (by simp)
  | closeInput hopen =>
    intro i
    obtain ⟨hc, hle, hpk, heo⟩ := hs i
    simp only [handleInputClosed]
    cases hp : s.parked i with
    | some cap =>
      have hidx : (s.readers i).startIdx = s.fullLog.length := hpk (by simp [hp])
      simp only [hp]
      exact ⟨hc, hle, by intro hcontr; simp at hcontr, fun _ => ⟨hidx, rfl⟩⟩
    | none =>
      simp only [hp]
      refine ⟨hc, hle, by intro hcontr; simp at hcontr, ?_⟩
      intro heof
      exact ⟨(heo heof).1, rfl⟩
  | readHist i cap hpark heof hlt =>
    intro k
    obtain ⟨hc, hle, hpk, heo⟩ := hs k
    simp only [requestHist]
    by_cases hk : k = i
    · subst hk
      simp only [eq_self_iff_true, if_true]
      refine ⟨?_, ?_, ?_, ?_⟩
      · simp only [consume]
        rw [hc]
        exact (List.take_add _ _ _).symm
      · simp only [consume, List.length_drop]
        have := Nat.min_le_right cap (s.fullLog.length - (s.readers k).startIdx)
        omega
      · intro hsome
        rw [hpark] at hsome
        simp at hsome
      · intro hcontr; simp [consume] at hcontr
    · simp only [if_neg hk]
      exact ⟨hc, hle, hpk, heo⟩
  | readPark i cap hpark heof hge hopen =>
    intro k
    obtain ⟨hc, hle, hpk, heo⟩ := hs k
    simp only [requestPark]
    by_cases hk : k = i
    · subst hk
      simp only [eq_self_iff_true, if_true]
      refine ⟨hc, hle, ?_, heo⟩
      intro _
      omega
    · simp only [if_neg hk]
      exact ⟨hc, hle, hpk, heo⟩
  | readEOF i hpark heof hge hclosed =>
    intro k
    obtain ⟨hc, hle, hpk, heo⟩ := hs k
    simp only [requestEOF]
    by_cases hk : k = i
    · subst hk
      simp only [eq_self_iff_true, if_true, eofReader]
      refine ⟨hc, hle, hpk, ?_⟩
      intro _
      refine ⟨?_, hclosed⟩
      show (s.readers k).startIdx = s.fullLog.length
      omega
    · simp only [if_neg hk]
      exact ⟨hc, hle, hpk, heo⟩

/-- The reader invariant holds in every reachable dispatcher state. -/
theorem sysInv_reach {s : LogSys} (h : LogReach s) : SysInv s := by
  induction h with
  | refl => exact sysInv_init
  | tail _ hstep ih => exact sysInv_step ih hstep
/-! ### Claim C1: log fan-out completeness -/

/-- C1.  For every reader created from a job's log dispatcher — subscribing
before, during or after the producer closes — the concatenation of the byte
slices returned by its successive `Read` calls up to the call that returns
EOF equals the dispatcher's complete `fullLog` buffer at the moment of EOF;
in particular, a reader subscribing after the producer closed can still drain
the full recorded output and then receives EOF. -/
theorem c1_log_fanout :
    (∀ s, LogReach s → ∀ i, (s.readers i).atEOF = true →
      (s.readers i).consumed = s.fullLog) ∧
    (∀ s i, LogReach s → s.inputOpen = false → s.readers i = initReader →
      s.parked i = none →
      ∃ s', Relation.ReflTransGen LogStep s s' ∧ s'.fullLog = s.fullLog ∧
        (s'.readers i).atEOF = true ∧ (s'.readers i).consumed = s.fullLog) := by
  constructor
  · intro s hreach i heof
    obtain ⟨hc, _, _, heo⟩ := sysInv_reach hreach i
    obtain ⟨hidx, _⟩ := heo heof
    rw [hc, hidx, List.take_length]
  · intro s i hreach hclosed hfresh hpark
    by_cases hL : s.fullLog = []
    · refine ⟨requestEOF s i, Relation.ReflTransGen.single ?_, rfl, ?_, ?_⟩
      · exact LogStep.readEOF s i hpark (by rw [hfresh]; rfl)
          (by rw [hfresh, hL]; exact Nat.le_refl 0) hclosed
      · simp [requestEOF, eofReader]
      · simp [requestEOF, eofReader, hfresh, initReader, hL]
    · have hlen : 0 < s.fullLog.length := List.length_pos.mpr hL
      have step1 : LogStep s (requestHist s i s.fullLog.length) :=
        LogStep.readHist s i s.fullLog.length hpark (by rw [hfresh]; rfl)
          (by rw [hfresh]; exact hlen)
      have h1r : (requestHist s i s.fullLog.length).readers i
          = ⟨s.fullLog.length, false, s.fullLog⟩ := by
        simp [requestHist, hfresh, initReader, consume]
      have h1park : (requestHist s i s.fullLog.length).parked i = none := hpark
      have step2 : LogStep (requestHist s i s.fullLog.length)
          (requestEOF (requestHist s i s.fullLog.length) i) :=
        LogStep.readEOF _ i h1park (by rw [h1r]) (by rw [h1r]; exact Nat.le_refl _) hclosed
      refine ⟨requestEOF (requestHist s i s.fullLog.length) i,
        Relation.ReflTransGen.head step1 (Relation.ReflTransGen.single step2), rfl, ?_, ?_⟩
      · simp [requestEOF, eofReader, h1r]
      · simp [requestEOF, eofReader, h1r]

/-- Witness for C1: a concrete run — the producer emits `"hi"` (bytes
104, 105) and closes; a reader subscribing only afterwards drains the history
in one `Read` of buffer length 2 and then reads EOF, having returned exactly
thefull log. -/
theorem c1_log_fanout_witness :
    ((requestEOF (requestHist (handleInputClosed (handleInput logInit [104, 105])) 0 2) 0).readers
        0).atEOF = true ∧
    ((requestEOF (requestHist (handleInputClosed (handleInput logInit [104, 105])) 0 2) 0).readers
        0).consumed =
      (requestEOF (requestHist (handleInputClosed (handleInput logInit [104, 105])) 0 2)
          0).fullLog := by
  refine ⟨rfl, ?_⟩
  have hreach : LogReach
      (requestEOF (requestHist (handleInputClosed (handleInput logInit [104, 105])) 0 2) 0) :=
    Relation.ReflTransGen.head (LogStep.input logInit [104, 105] rfl)
      (Relation.ReflTransGen.head (LogStep.closeInput (handleInput logInit [104, 105]) rfl)
        (Relation.ReflTransGen.head
          (LogStep.readHist (handleInputClosed (handleInput logInit [104, 105])) 0 2 rfl rfl
            (by decide))
          (Relation.ReflTransGen.single
            (LogStep.readEOF (requestHist (handleInputClosed (handleInput logInit [104, 105])) 0 2)
              0 rfl rfl (by decide) rfl))))
  exact c1_log_fanout.1 _ hreach 0 rfl

/-! ### Claims C2 and C3: status equivalence and reaping -/

/-- C2 counterexample.  Reaping with a `cmd.Wait` failure that is neither nil
nor an `exec.ExitError` (the `default` branch of `job.wait`) clears `running`
and stamps `stopped` but leaves `exit_code` at `NotTerminated (-2)`, so the
three-way equivalence fails on the resulting snapshot while it held before. -/
theorem c2_status_equiv_counterexample :
    statusInv (initialStatus "1" "sleep" ["100"] 3) ∧
    ¬ statusInv (waitUpdate (initialStatus "1" "sleep" ["100"] 3) WaitOutcome.failed 5) := by
  constructor
  · refine ⟨by simp [initialStatus], by simp [initialStatus]⟩
  · intro h
    obtain ⟨h1, _⟩ := h
    simp [initialStatus, waitUpdate, NotTerminated] at h1

/-- C2 (amended).  The three-way equivalence `running ⇔ exit_code = -2 ⇔
stopped = zero` holds at construction, is untouched by `stop` (which never
modifies the snapshot) and by status reads, and is re-established by every
reap whose wait outcome is nil or an `exec.ExitError` (whose `ExitCode()` is
never `-2`) at a nonzero wall-clock instant; a reap whose wait fails with any
other error clears `running` but leaves `exit_code` at `NotTerminated`,
violating the equivalence. -/
theorem c2_status_equiv_amended :
    (∀ id command args now, statusInv (initialStatus id command args now)) ∧
    (∀ c owner id kr, (stopM c owner id kr).2 = c) ∧
    (∀ s o now, 0 < now → o ≠ WaitOutcome.failed →
      (∀ cde, o = WaitOutcome.exitErr cde → cde ≠ NotTerminated) →
      statusInv (waitUpdate s o now)) ∧
    (∀ s now, (waitUpdate s WaitOutcome.failed now).running = false ∧
      (waitUpdate s WaitOutcome.failed now).exitCode = s.exitCode) := by
  refine ⟨?_, ?_, ?_, ?_⟩
  · intro id command args now
    exact ⟨by simp [initialStatus], by simp [initialStatus]⟩
  · intro c owner id kr
    cases h : getJob c owner id <;> simp [stopM, h]
  · intro s o now hnow hnf hcode
    cases o with
    | success =>
      constructor
      · simp [waitUpdate, NotTerminated]
      · simp [waitUpdate]
        omega
    | exitErr cde =>
      have hne : cde ≠ NotTerminated := hcode cde rfl
      refine ⟨?_, ?_⟩ <;> simp [waitUpdate, NotTerminated] <;>
        first
        | (intro h; exact hne (by simpa [NotTerminated] using h))
        | omega
    | failed => exact absurd rfl hnf
  · intro s now
    exact ⟨rfl, rfl⟩

/-- Witness for the amended C2: a natural exit with code 1 at instant 5
re-establishes the equivalence on a previously-running snapshot. -/
theorem c2_status_equiv_amended_witness :
    statusInv (waitUpdate (initialStatus "2" "false" [] 1) (WaitOutcome.exitErr 1) 5) :=
  c2_status_equiv_amended.2.2.1 (initialStatus "2" "false" [] 1) (WaitOutcome.exitErr 1) 5
    (by decide) (fun h => nomatch h) (fun cde h => by injection h with h1; rw [← h1]; decide)

/-- C3 counterexample.  After a reap whose `cmd.Wait` returned a non-nil,
non-`ExitError` error, the snapshot shows `running = false` with `exit_code
= -2`: an exit code outside `{-1} ∪ [0, 255]`, contradicting the claim that
no other value is possible after reaping. -/
theorem c3_reap_exitcode_counterexample :
    (waitUpdate (initialStatus "1" "true" [] 3) WaitOutcome.failed 5).running = false ∧
    (waitUpdate (initialStatus "1" "true" [] 3) WaitOutcome.failed 5).stopped = 5 ∧
    (waitUpdate (initialStatus "1" "true" [] 3) WaitOutcome.failed 5).exitCode = NotTerminated ∧
    ¬ ((waitUpdate (initialStatus "1" "true" [] 3) WaitOutcome.failed 5).exitCode =
          TerminatedBySignal ∨
        (0 ≤ (waitUpdate (initialStatus "1" "true" [] 3) WaitOutcome.failed 5).exitCode ∧
          (waitUpdate (initialStatus "1" "true" [] 3) WaitOutcome.failed 5).exitCode ≤ 255)) := by
  refine ⟨rfl, rfl, rfl, ?_⟩
  intro h
  simp [waitUpdate, initialStatus, NotTerminated, TerminatedBySignal] at h

/-- C3 (amended).  When the reaper's wait returns, the status is updated
under the mutex to `running = false` and `stopped = now`, and `exit_code`
becomes 0 on a nil error, the `ExitCode()` of an `exec.ExitError` (`-1` for a
signal death or missing status, `0..255` for a natural exit) — so in those
cases no value outside `{-1} ∪ [0,255]` is possible — while a wait failing
with any other error leaves `exit_code` unchanged at `NotTerminated (-2)`. -/
theorem c3_reap_exitcode_amended :
    ∀ (s : Status) (o : WaitOutcome) (now : Nat),
      (waitUpdate s o now).running = false ∧
      (waitUpdate s o now).stopped = now ∧
      (o = WaitOutcome.success → (waitUpdate s o now).exitCode = 0) ∧
      (∀ cde, o = WaitOutcome.exitErr cde → (waitUpdate s o now).exitCode = cde) ∧
      (o = WaitOutcome.failed → (waitUpdate s o now).exitCode = s.exitCode) ∧
      ((∀ cde, o = WaitOutcome.exitErr cde →
          cde = TerminatedBySignal ∨ (0 ≤ cde ∧ cde ≤ 255)) →
        o ≠ WaitOutcome.failed →
        (waitUpdate s o now).exitCode = TerminatedBySignal ∨
          (0 ≤ (waitUpdate s o now).exitCode ∧ (waitUpdate s o now).exitCode ≤ 255)) := by
  intro s o now
  cases o with
  | success =>
    refine ⟨rfl, rfl, fun _ => rfl, ?_, ?_, ?_⟩
    · intro cde h
      exact nomatch h
    · intro h
      exact nomatch h
    · intro _ _
      right
      exact ⟨by simp [waitUpdate], by simp [waitUpdate]⟩
  | exitErr cde =>
    refine ⟨rfl, rfl, ?_, ?_, ?_, ?_⟩
    · intro h
      exact nomatch h
    · intro c h
      injection h with h1
    · intro h
      exact nomatch h
    · intro hrange _
      exact hrange cde rfl
  | failed =>
    refine ⟨rfl, rfl, ?_, ?_, fun _ => rfl, ?_⟩
    · intro h
      exact nomatch h
    · intro c h
      exact nomatch h
    · intro _ hne
      exact absurd rfl hne

/-- Witness for the amended C3: a signal-killed job (ExitError with
`ExitCode() = -1`) reaped at instant 7 lands exactly on
`TerminatedBySignal`. -/
theorem c3_reap_exitcode_amended_witness :
    (waitUpdate (initialStatus "1" "sleep" ["100"] 2) (WaitOutcome.exitErr (-1)) 7).exitCode =
      -1 :=
  (c3_reap_exitcode_amended (initialStatus "1" "sleep" ["100"] 2) (WaitOutcome.exitErr (-1))
      7).2.2.2.1 (-1) rfl
/-! ### Claim C10: empty command is rejected before the shutdown check -/

/-- C10.  `Controller.Start` validates the command before consulting the
shutdown flag: an empty command is rejected with `ErrCommand` — not
`ErrShutdown` — for every controller state (shut down or not), and the state,
in particular the id counter, is completely unchanged. -/
theorem c10_empty_command_rejected :
    ∀ (c : CtrlState) (owner : String) (args : List String) (e : StartEnv) (now : Nat),
      startM c owner "" args e now = (Except.error JError.command, c) := by
  intro c owner args e now
  simp [startM]

/-! ### Claim C5: id counter -/

/-- C5 counterexample.  After three successful starts and one start of the
non-empty command `"NOPE"` that fails to spawn (`BadCommand`), the next
successful start returns id `"5"`, not `"4"`: the failing start already
incremented the counter (`maxID.Add(1)` happens before `newJob`). -/
theorem c5_id_counter_counterexample :
    (startM c5State4 "alice" "echo" ["hi"] okEnv 5).1 = Except.ok "5" ∧
    (startM c5State4 "alice" "echo" ["hi"] okEnv 5).1 ≠ Except.ok "4" := by
  refine ⟨rfl, ?_⟩
  intro h
  have h5 : (startM c5State4 "alice" "echo" ["hi"] okEnv 5).1 = Except.ok "5" := rfl
  rw [h5] at h
  injection h with h'
  exact absurd h' (by decide)

/-- C5 (amended).  Job ids are decimal strings of a counter that starts at 1;
a `Start` rejected for an empty command or shutdown consumes no id, but a
`Start` whose non-empty command fails to spawn (`BadCommand`) has already
consumed one — its id registers no job and is never observable via `Status`
(`NotFound`) — so after three successful starts and one such failure the next
successful start returns `"5"`. -/
theorem c5_id_counter_amended :
    (startM c5State0 "alice" "sleep" ["100"] okEnv 1).1 = Except.ok "1" ∧
    (startM c5State1 "alice" "sleep" ["100"] okEnv 2).1 = Except.ok "2" ∧
    (startM c5State2 "alice" "sleep" ["100"] okEnv 3).1 = Except.ok "3" ∧
    (startM c5State3 "alice" "NOPE" [] spawnFailEnv 4).1 = Except.error JError.command ∧
    c5State4.maxID = 4 ∧
    c5State4.jobs = c5State3.jobs ∧
    statusM c5State4 "alice" "4" = Except.error JError.notFound ∧
    (startM c5State4 "alice" "echo" ["hi"] okEnv 5).1 = Except.ok "5" := by
  exact ⟨rfl, rfl, rfl, rfl, rfl, rfl, rfl, rfl⟩

/-! ### Claim C6: cgroup limit writes -/

/-- Helper: the `cpu.max` string written for `cpus = 1/2` is `"50000\n"`. -/
theorem cpuMaxContent_half : cpuMaxContent (1 / 2) = "50000\n" := by
  show toString (Int.floor ((1 / 2 : ℚ) * 100000)) ++ "\n" = "50000\n"
  rw [show Int.floor ((1 / 2 : ℚ) * 100000) = 50000 by norm_num]
  rfl

/-- C6.  Creating a job cgroup with limits performs exactly the writes of
`cgroupWrites`: `floor(cpus*100000)` with a newline to `cpu.max` iff
`cpus > 0`, `memory_kib*1024` with a newline to `memory.max` iff
`memory_kib > 0`, one independent `io.max` write per `io` entry, and nothing
for zero limits; for `cpus = 0.5`, `memory_kib = 1000` the written strings
are `"50000\n"` and `"1024000\n"`, and the kernel-side `cpu.max` read-back is
`"50000 100000\n"` as the spec's testable property states. -/
theorem c6_cgroup_limit_writes :
    cgroupWrites ⟨1 / 2, 1000, []⟩ = [("cpu.max", "50000\n"), ("memory.max", "1024000\n")] ∧
    (∀ io, cgroupWrites ⟨0, 0, io⟩ = io.map (fun line => ("io.max", line))) ∧
    (∀ l : Limits, 0 < l.cpus → 0 < l.memoryKiB →
      cgroupWrites l =
        ("cpu.max", cpuMaxContent l.cpus) :: ("memory.max", memoryMaxContent l.memoryKiB) ::
          l.io.map (fun line => ("io.max", line))) ∧
    cpuMaxFileContent (Int.floor ((1 / 2 : ℚ) * 100000)) = "50000 100000\n" ∧
    memoryMaxContent 1000 = "1024000\n" := by
  refine ⟨?_, ?_, ?_, ?_, rfl⟩
  · show (if (0 : ℚ) < 1 / 2 then [("cpu.max", cpuMaxContent (1 / 2))] else []) ++
      (if 0 < 1000 then [("memory.max", memoryMaxContent 1000)] else []) ++
        ([] : List String).map (fun line => ("io.max", line)) =
      [("cpu.max", "50000\n"), ("memory.max", "1024000\n")]
    rw [if_pos (by norm_num : (0 : ℚ) < 1 / 2), if_pos (by norm_num : 0 < 1000),
      cpuMaxContent_half]
    rfl
  · intro io
    simp [cgroupWrites]
  · intro l h1 h2
    simp [cgroupWrites, if_pos h1, if_pos h2]
  · show toString (Int.floor ((1 / 2 : ℚ) * 100000)) ++ " 100000\n" = "50000 100000\n"
    rw [show Int.floor ((1 / 2 : ℚ) * 100000) = 50000 by norm_num]
    rfl

/-- Witness for C6: with both limits positive and one io line, the write list
is produced through the theorem's general clause. -/
theorem c6_cgroup_limit_writes_witness :
    cgroupWrites ⟨1 / 2, 1000, ["252:1 rbps=1000000"]⟩ =
      [("cpu.max", "50000\n"), ("memory.max", "1024000\n"),
        ("io.max", "252:1 rbps=1000000")] := by
  rw [c6_cgroup_limit_writes.2.2.1 ⟨1 / 2, 1000, ["252:1 rbps=1000000"]⟩ (by norm_num)
    (by norm_num)]
  show ("cpu.max", cpuMaxContent (1 / 2)) :: _ = _
  rw [cpuMaxContent_half]
  rfl

/-! ### Claim C7: job construction is atomic w.r.t. the job cgroup -/

/-- C7.  If a limit write fails after the job cgroup directory was created,
the directory is (best-effort) deleted and `CgroupWrite` is returned; if the
spawn fails, the directory is deleted and `BadCommand` is returned; in either
case `Controller.Start` propagates the error and registers no job. -/
theorem c7_construction_atomic :
    ∀ (l : Limits) (e : StartEnv) (i : Nat),
      (e.mkdirOk = true → e.cgFailIdx = some i → i < (cgroupWrites l).length →
        newStartedCmdM l e = ⟨some JError.cgroup, true, true⟩) ∧
      (e.mkdirOk = true → e.cgFailIdx = none → e.openOk = true → e.spawnOk = false →
        newStartedCmdM l e = ⟨some JError.command, true, true⟩) ∧
      (∀ (c : CtrlState) (owner command : String) (args : List String) (now : Nat)
          (err : JError), command ≠ "" → c.shutDown = false →
        (newStartedCmdM c.limits e).error = some err →
        startM c owner command args e now =
          (Except.error err, { c with maxID := c.maxID + 1 }) ∧
        (startM c owner command args e now).2.jobs = c.jobs) := by
  intro l e i
  refine ⟨?_, ?_, ?_⟩
  · intro hmk hidx hlt
    simp [newStartedCmdM, hmk, hidx, hlt]
  · intro hmk hidx hop hsp
    simp [newStartedCmdM, hmk, hidx, hop, hsp]
  · intro c owner command args now err hcmd hsd herr
    have hj : newJobM owner (toString (c.maxID + 1)) command args c.limits e now =
        Except.error err := by
      simp [newJobM, herr]
    constructor
    · simp [startM, hcmd, hsd, hj]
    · simp [startM, hcmd, hsd, hj]

/-- Witness for C7: with `cpus = 1/2`, `memory_kib = 1000`, the very first
limit write failing yields `ErrCgroup` with the directory created and its
deletion attempted. -/
theorem c7_construction_atomic_witness :
    newStartedCmdM ⟨1 / 2, 1000, []⟩ ⟨true, some 0, true, true⟩ =
      ⟨some JError.cgroup, true, true⟩ :=
  (c7_construction_atomic ⟨1 / 2, 1000, []⟩ ⟨true, some 0, true, true⟩ 0).1 rfl rfl
    (by norm_num [cgroupWrites])
/-! ### Controller helper lemmas -/

/-- `Controller.Start` leaves the state unchanged, bumps only the counter, or
bumps the counter and prepends one registry binding under the fresh id. -/
theorem startM_cases (c : CtrlState) (owner command : String) (args : List String)
    (e : StartEnv) (now : Nat) :
    (startM c owner command args e now).2 = c ∨
    (startM c owner command args e now).2 = { c with maxID := c.maxID + 1 } ∨
    ∃ j, (startM c owner command args e now).2 =
      { jobs := (toString (c.maxID + 1), j) :: c.jobs, maxID := c.maxID + 1,
        shutDown := c.shutDown, limits := c.limits } := by
  by_cases h1 : command = ""
  · left; simp [startM, h1]
  · by_cases h2 : c.shutDown = true
    · left; simp [startM, h1, h2]
    · cases hj : newJobM owner (toString (c.maxID + 1)) command args c.limits e now with
      | error err => right; left; simp [startM, h1, h2, hj]
      | ok j => right; right; exact ⟨j, by simp [startM, h1, h2, hj]⟩

/-- No controller interaction clears the shutdown flag. -/
theorem ctrlStep_shutDown_mono {c c' : CtrlState} (h : CtrlStep c c')
    (hsd : c.shutDown = true) : c'.shutDown = true := by
  cases h with
  | start owner command args e now =>
    rcases startM_cases c owner command args e now with h1 | h1 | ⟨j, h1⟩ <;> rw [h1] <;>
      exact hsd
  | stop owner id kr =>
    have h2 : (stopM c owner id kr).2 = c := by
      cases hg : getJob c owner id <;> simp [stopM, hg]
    rw [h2]; exact hsd
  | reap id o now => exact hsd
  | stopAll kr pd =>
    by_cases h2 : c.shutDown = true
    · simp [stopAllM, h2]
    · simp [stopAllM, h2]

/-- The shutdown flag is stable along any sequence of interactions. -/
theorem shutDown_stable {c c' : CtrlState} (hsd : c.shutDown = true)
    (h : Relation.ReflTransGen CtrlStep c c') : c'.shutDown = true := by
  induction h with
  | refl => exact hsd
  | tail _ hstep ih => exact ctrlStep_shutDown_mono hstep ih

/-- On a shut-down controller, any `Start` with a non-empty command is
rejected with `ErrShutdown` and the state is unchanged. -/
theorem start_rejected_after_shutdown {c : CtrlState} (hsd : c.shutDown = true)
    (owner command : String) (args : List String) (e : StartEnv) (now : Nat)
    (hcmd : command ≠ "") :
    startM c owner command args e now = (Except.error JError.shutdown, c) := by
  simp [startM, hcmd, hsd]

/-- On a shut-down controller, `StopAll` is a no-op success. -/
theorem stopAll_after_shutdown {c : CtrlState} (hsd : c.shutDown = true)
    (kr : String → KillResult) (pd : Bool) : stopAllM c kr pd = (Except.ok (), c) := by
  simp [stopAllM, hsd]

/-- `StopAll` always leaves the shutdown flag set. -/
theorem stopAll_sets_shutdown (c : CtrlState) (kr : String → KillResult) (pd : Bool) :
    (stopAllM c kr pd).2.shutDown = true := by
  by_cases h : c.shutDown = true
  · simp [stopAllM, h]
  · simp [stopAllM, h]

/-- `find?` over a key-preserving map of an association list commutes. -/
theorem find?_map_key_fixed (l : List (String × JobM)) (g : String × JobM → String × JobM)
    (hg : ∀ p, (g p).1 = p.1) (q : String) :
    (l.map g).find? (fun p => p.1 == q) = (l.find? (fun p => p.1 == q)).map g := by
  induction l with
  | nil => rfl
  | cons hd tl ih =>
    simp only [List.map_cons, List.find?]
    rw [hg hd]
    by_cases h : (hd.1 == q) = true
    · simp [h]
    · simp [h, ih]

/-- Registry lookup after a reap: the entry for the reaped id gets its status
rewritten by `waitUpdate`; every other entry is untouched. -/
theorem lookupJob_reapM (c : CtrlState) (rid id : String) (o : WaitOutcome) (now : Nat) :
    lookupJob (reapM c rid o now) id =
      (lookupJob c id).map
        (fun j => if id == rid then ⟨j.owner, waitUpdate j.status o now⟩ else j) := by
  unfold lookupJob reapM
  rw [find?_map_key_fixed _ _ (fun p => by
    by_cases hh : (p.1 == rid) = true <;> simp [hh])]
  cases hf : (c.jobs.find? (fun p => p.1 == id)) with
  | none => rfl
  | some p =>
    have hpe : p.1 = id := by simpa using List.find?_some hf
    by_cases hr : (id == rid) = true
    · have hid : id = rid := by simpa using hr
      simp [hpe, hid]
    · have hid : ¬(id = rid) := by simpa using hr
      simp [hpe, hid]

/-- Prepending a binding with a different key does not change a lookup. -/
theorem lookupJob_cons_ne (c : CtrlState) (nid : String) (nj : JobM) (m : Nat) (sd : Bool)
    (li : Limits) (id : String) (hne : (nid == id) = false) :
    lookupJob { jobs := (nid, nj) :: c.jobs, maxID := m, shutDown := sd, limits := li } id =
      lookupJob c id := by
  unfold lookupJob
  simp only [List.find?]
  simp [hne]

/-- The fresh-controller registry satisfies the key invariant. -/
theorem keysBounded_init (l : Limits) : KeysBounded (ctrlInit l) := by
  intro id j h
  simp [lookupJob, ctrlInit] at h

/-- Every controller interaction preserves the registry-key invariant. -/
theorem keysBounded_step {c c' : CtrlState} (h : CtrlStep c c') (hkb : KeysBounded c) :
    KeysBounded c' := by
  cases h with
  | start owner command args e now =>
    rcases startM_cases c owner command args e now with h1 | h1 | ⟨j, h1⟩
    · rwa [h1]
    · rw [h1]
      intro id jj hl
      obtain ⟨k, hk1, hk2, hk3⟩ := hkb id jj hl
      exact ⟨k, hk1, Nat.le_succ_of_le hk2, hk3⟩
    · rw [h1]
      intro id jj hl
      by_cases he : (toString (c.maxID + 1) == id) = true
      · have hid : id = toString (c.maxID + 1) := (eq_of_beq he).symm
        exact ⟨c.maxID + 1, by omega, Nat.le_refl _, hid⟩
      · have hne : (toString (c.maxID + 1) == id) = false := by simpa using he
        have hl' : lookupJob c id = some jj := by
          rwa [lookupJob_cons_ne c _ j _ _ _ id hne] at hl
        obtain ⟨k, hk1, hk2, hk3⟩ := hkb id jj hl'
        exact ⟨k, hk1, Nat.le_succ_of_le hk2, hk3⟩
  | stop owner id kr =>
    have h2 : (stopM c owner id kr).2 = c := by
      cases hg : getJob c owner id <;> simp [stopM, hg]
    rwa [h2]
  | reap rid o now =>
    intro id jj hl
    rw [lookupJob_reapM] at hl
    obtain ⟨j0, hj0, _⟩ := Option.map_eq_some'.mp hl
    exact hkb id j0 hj0
  | stopAll kr pd =>
    by_cases h2 : c.shutDown = true
    · have h3 : (stopAllM c kr pd).2 = c := by simp [stopAllM, h2]
      rwa [h3]
    · have h3 : (stopAllM c kr pd).2 = { c with shutDown := true } := by simp [stopAllM, h2]
      rw [h3]
      intro id jj hl
      exact hkb id jj hl

/-- The registry-key invariant holds in every reachable controller state. -/
theorem keysBounded_steps {c c' : CtrlState} (h : Relation.ReflTransGen CtrlStep c c')
    (hkb : KeysBounded c) : KeysBounded c' := by
  induction h with
  | refl => exact hkb
  | tail _ hstep ih => exact keysBounded_step hstep ih

/-- One interaction never drops a registry entry, never changes its owner,
and never changes the command or arguments of its status. -/
theorem step_preserves_entry {c c' : CtrlState} (h : CtrlStep c c') (hkb : KeysBounded c)
    {id : String} {j : JobM} (hl : lookupJob c id = some j) :
    ∃ j', lookupJob c' id = some j' ∧ j'.owner = j.owner ∧
      j'.status.command = j.status.command ∧ j'.status.args = j.status.args := by
  cases h with
  | start owner command args e now =>
    rcases startM_cases c owner command args e now with h1 | h1 | ⟨nj, h1⟩
    · exact ⟨j, by rw [h1]; exact hl, rfl, rfl, rfl⟩
    · exact ⟨j, by rw [h1]; exact hl, rfl, rfl, rfl⟩
    · refine ⟨j, ?_, rfl, rfl, rfl⟩
      rw [h1]
      obtain ⟨k, hk1, hk2, hk3⟩ := hkb id j hl
      have hne : (toString (c.maxID + 1) == id) = false := by
        apply beq_eq_false_iff_ne.mpr
        intro heq
        rw [hk3] at heq
        have := toString_nat_inj heq
        omega
      rw [lookupJob_cons_ne c _ nj _ _ _ id hne]
      exact hl
  | stop owner oid kr =>
    have h2 : (stopM c owner oid kr).2 = c := by
      cases hg : getJob c owner oid <;> simp [stopM, hg]
    exact ⟨j, by rw [h2]; exact hl, rfl, rfl, rfl⟩
  | reap rid o now =>
    refine ⟨if id == rid then ⟨j.owner, waitUpdate j.status o now⟩ else j, ?_, ?_, ?_, ?_⟩
    · rw [lookupJob_reapM, hl]
      rfl
    · by_cases hr : (id == rid) = true <;> simp [hr]
    · by_cases hr : (id == rid) = true <;> simp [hr, waitUpdate]
    · by_cases hr : (id == rid) = true <;> simp [hr, waitUpdate]
  | stopAll kr pd =>
    by_cases h2 : c.shutDown = true
    · have h3 : (stopAllM c kr pd).2 = c := by simp [stopAllM, h2]
      exact ⟨j, by rw [h3]; exact hl, rfl, rfl, rfl⟩
    · have h3 : (stopAllM c kr pd).2 = { c with shutDown := true } := by simp [stopAllM, h2]
      exact ⟨j, by rw [h3]; exact hl, rfl, rfl, rfl⟩

/-- Entries persist with their owner, command and arguments along any
sequence of interactions from a state satisfying the key invariant. -/
theorem steps_preserve_entry {c c' : CtrlState} (hsteps : Relation.ReflTransGen CtrlStep c c')
    (hkb : KeysBounded c) {id : String} {j : JobM} (hl : lookupJob c id = some j) :
    ∃ j', lookupJob c' id = some j' ∧ j'.owner = j.owner ∧
      j'.status.command = j.status.command ∧ j'.status.args = j.status.args := by
  induction hsteps with
  | refl => exact ⟨j, hl, rfl, rfl, rfl⟩
  | tail hpre hstep ih =>
    obtain ⟨j1, hl1, ho1, hc1, ha1⟩ := ih
    obtain ⟨j2, hl2, ho2, hc2, ha2⟩ :=
      step_preserves_entry hstep (keysBounded_steps hpre hkb) hl1
    exact ⟨j2, hl2, ho2.trans ho1, hc2.trans hc1, ha2.trans ha1⟩

/-! ### Claim C8: StopAll is terminal -/

/-- C8.  `StopAll` puts the controller into a terminal shut-down state: after
the first `StopAll` returns, every subsequent `Start` with a non-empty
command — at any later point — fails with `ErrShutdown` and registers nothing
(the state is unchanged), and every subsequent `StopAll` returns success
without stopping anything again. -/
theorem c8_stopall_terminal :
    ∀ (c : CtrlState) (kr : String → KillResult) (pd : Bool),
      (stopAllM c kr pd).2.shutDown = true ∧
      ∀ c2, Relation.ReflTransGen CtrlStep (stopAllM c kr pd).2 c2 →
        (∀ (owner command : String) (args : List String) (e : StartEnv) (now : Nat),
          command ≠ "" →
          startM c2 owner command args e now = (Except.error JError.shutdown, c2)) ∧
        (∀ (kr2 : String → KillResult) (pd2 : Bool),
          stopAllM c2 kr2 pd2 = (Except.ok (), c2)) := by
  intro c kr pd
  have h1 := stopAll_sets_shutdown c kr pd
  refine ⟨h1, ?_⟩
  intro c2 hsteps
  have h2 := shutDown_stable h1 hsteps
  exact ⟨fun owner command args e now hcmd =>
      start_rejected_after_shutdown h2 owner command args e now hcmd,
    fun kr2 pd2 => stopAll_after_shutdown h2 kr2 pd2⟩

/-- Witness for C8: a freshly shut-down controller rejects a concrete start
with `ErrShutdown` unchanged, and a second `StopAll` is a no-op success. -/
theorem c8_stopall_terminal_witness :
    startM c8Base "alice" "echo" ["hi"] okEnv 9 = (Except.error JError.shutdown, c8Base) ∧
    stopAllM c8Base (fun _ => KillResult.processDone) false = (Except.ok (), c8Base) := by
  have h := (c8_stopall_terminal (ctrlInit limits0) (fun _ => KillResult.ok) true).2 c8Base
    Relation.ReflTransGen.refl
  exact ⟨h.1 "alice" "echo" ["hi"] okEnv 9 (by decide), h.2 _ _⟩

/-! ### Claim C9: the registry never forgets a job -/

/-- C9.  The controller never removes a registered job: for every job
registered under some id, after any sequence of interactions the entry is
still there with the same owner, `Status` by that owner succeeds with the
entry's snapshot, `Stop` by that owner never fails with `NotFound` or
`Unauthorized` and never modifies the state, and `Stop` on a job that is no
longer running returns success outright. -/
theorem c9_registry_persistence :
    ∀ (l : Limits) (c c' : CtrlState) (id : String) (j : JobM),
      CtrlReach l c → Relation.ReflTransGen CtrlStep c c' → lookupJob c id = some j →
      ∃ j', lookupJob c' id = some j' ∧ j'.owner = j.owner ∧
        statusM c' j.owner id = Except.ok j'.status ∧
        (∀ kr, (stopM c' j.owner id kr).2 = c' ∧
          (stopM c' j.owner id kr).1 ≠ Except.error JError.notFound ∧
          (stopM c' j.owner id kr).1 ≠ Except.error JError.unauthorized) ∧
        (j'.status.running = false → ∀ kr, stopM c' j.owner id kr = (Except.ok (), c')) := by
  intro l c c' id j hreach hsteps hl
  have hkb : KeysBounded c := keysBounded_steps hreach (keysBounded_init l)
  obtain ⟨j', hl', ho, _, _⟩ := steps_preserve_entry hsteps hkb hl
  have hget : getJob c' j.owner id = Except.ok j' := by
    unfold getJob
    rw [hl']
    show (if j'.owner ≠ j.owner then Except.error JError.unauthorized else Except.ok j') =
      Except.ok j'
    rw [if_neg (by simp [ho])]
  have hstop : ∀ kr, stopM c' j.owner id kr = (jobStopM j' kr, c') := by
    intro kr
    unfold stopM
    rw [hget]
  refine ⟨j', hl', ho, ?_, ?_, ?_⟩
  · unfold statusM
    rw [hget]
  · intro kr
    rw [hstop kr]
    refine ⟨rfl, ?_, ?_⟩
    · show jobStopM j' kr ≠ Except.error JError.notFound
      unfold jobStopM
      by_cases hr : j'.status.running = false
      · rw [if_pos hr]; simp
      · rw [if_neg hr]; cases kr <;> simp
    · show jobStopM j' kr ≠ Except.error JError.unauthorized
      unfold jobStopM
      by_cases hr : j'.status.running = false
      · rw [if_pos hr]; simp
      · rw [if_neg hr]; cases kr <;> simp
  · intro hrun kr
    rw [hstop kr]
    unfold jobStopM
    rw [if_pos hrun]

/-- Witness for C9: the job registered as id "1" is still observable via
`Status` by its owner in the very state it was started in. -/
theorem c9_registry_persistence_witness :
    statusM c5State1 "alice" "1" = Except.ok (initialStatus "1" "sleep" ["100"] 1) := by
  obtain ⟨j', hj', hown, hstat, _, _⟩ :=
    c9_registry_persistence limits0 c5State1 c5State1 "1"
      ⟨"alice", initialStatus "1" "sleep" ["100"] 1⟩
      (Relation.ReflTransGen.single (CtrlStep.start c5State0 "alice" "sleep" ["100"] okEnv 1))
      Relation.ReflTransGen.refl rfl
  have hj : j' = ⟨"alice", initialStatus "1" "sleep" ["100"] 1⟩ := by
    have h0 : lookupJob c5State1 "1" =
        some ⟨"alice", initialStatus "1" "sleep" ["100"] 1⟩ := rfl
    rw [h0] at hj'
    exact (Option.some.inj hj').symm
  rw [hj] at hstat
  exact hstat

/-! ### Claim C4: the Logs RPC of this source tree -/

/-- C4 (divergence witness).  `Service.Logs` as present in this source tree
(`creds.go:154-157`) answers every request — in particular one for a started
job by its owner — with gRPC `Unimplemented` and never streams a chunk, while
the spec (and the repository's own tests) mandate a byte-chunk stream. -/
theorem c4_logs_unimplemented :
    ∀ req : LogsRequest, serviceLogs req = Except.error GrpcCode.unimplemented :=
  fun _ => rfl
